import Mathlib

/-
Shallow embedding of `tsig.go` (package tsig): the single exported routine
`ExchangeTKEY`, which builds a DNS TKEY query, optionally attaches a TSIG
signature, resolves the target host, tries each resolved address in turn over
TCP, and validates the response.

External collaborators (the DNS wire codec, the TSIG HMAC primitives, the TCP
transport `client.Exchange`, the resolver `net.LookupHost`, the clock
`time.Now` and the transaction-id generator `dns.Id`) are modelled as an
environment oracle `Env`.  Machine integers stay `Nat` with explicit
`% 4294967296` (uint32) and `% 65536` (uint16) where Go's conversions wrap.
The embedding records the observable effects the claims speak about: whether
host resolution was invoked and the exact sequence of messages handed to the
transport.
-/

namespace Tsig

/-- The RFC 3645 GSS algorithm name, constant `GSS` in the source. -/
def GSS : String := "gss-tsig."

/-- TKEY mode constants from the source's iota block (0 is reserved). -/
def TkeyModeServer : Nat := 1

/-- Diffie-Hellman exchanged keying mode. -/
def TkeyModeDH : Nat := 2

/-- GSS-API establishment mode. -/
def TkeyModeGSS : Nat := 3

/-- Resolver assigned keying mode. -/
def TkeyModeResolver : Nat := 4

/-- Key deletion mode. -/
def TkeyModeDelete : Nat := 5

/-- Model of Go `strings.ToLower` restricted to ASCII (all algorithm names
compared in the source are ASCII). -/
def goToLower (s : String) : String := String.mk (s.data.map Char.toLower)

/-- Model of the miekg/dns `RcodeToString` map; a missing key yields the Go
zero value `""`. -/
def rcodeToString (r : Nat) : String :=
  if r = 0 then "NOERROR" else if r = 1 then "FORMERR" else if r = 2 then "SERVFAIL"
  else if r = 3 then "NXDOMAIN" else if r = 4 then "NOTIMP" else if r = 5 then "REFUSED"
  else if r = 6 then "YXDOMAIN" else if r = 7 then "YXRRSET" else if r = 8 then "NXRRSET"
  else if r = 9 then "NOTAUTH" else if r = 10 then "NOTZONE" else if r = 16 then "BADSIG"
  else if r = 17 then "BADKEY" else if r = 18 then "BADTIME" else if r = 19 then "BADMODE"
  else if r = 20 then "BADNAME" else if r = 21 then "BADALG" else if r = 22 then "BADTRUNC"
  else if r = 23 then "BADCOOKIE" else ""

/-- Hex digit of a nibble, per Go's `encoding/hex` table "0123456789abcdef". -/
def hexDigit (n : Nat) : Char :=
  if n < 10 then Char.ofNat (48 + n) else Char.ofNat (87 + n)

/-- Hex encoding of one byte (value < 256), high nibble first. -/
def hexByte (b : Nat) : String := String.mk [hexDigit (b / 16), hexDigit (b % 16)]

/-- Model of Go `hex.EncodeToString` over a byte sequence. -/
def hexEncode (bs : List Nat) : String := String.join (bs.map hexByte)

/-- A `dns.TKEY` resource record (the fields the source reads or writes). -/
structure TKEY where
  name : String
  algorithm : String
  mode : Nat
  inception : Nat
  expiration : Nat
  keySize : Nat
  key : String
  error : Nat
deriving DecidableEq

/-- A DNS resource record as the source discriminates them: either a
`*dns.TKEY` or any other record, kept opaque (tagged by a number so distinct
records stay distinct). -/
inductive RR where
  | tkey : TKEY → RR
  | other : Nat → RR
deriving DecidableEq

/-- The TSIG record `msg.SetTsig` attaches (the arguments the source passes). -/
structure TsigRR where
  name : String
  algorithm : String
  fudge : Nat
  timeSigned : Nat
deriving DecidableEq

/-- A `dns.Msg` restricted to the fields the source touches. -/
structure Msg where
  id : Nat
  recursionDesired : Bool
  questionName : String
  answer : List RR
  extra : List RR
  tsig : Option TsigRR
  rcode : Nat
deriving DecidableEq

/-- The `dns.Client` configuration the source manipulates.  `tsigAlgorithm`
models `client.TsigAlgorithm = map[string]*dns.TsigAlgorithm{GSS: {nil, nil}}`:
`some GSS` when the null-algorithm entry for the GSS name has been installed,
`none` otherwise.  `tsigSecret` models the `client.TsigSecret` map as its list
of bindings. -/
structure Client where
  net : String
  tsigAlgorithm : Option String
  tsigSecret : List (String × String)
deriving DecidableEq

/-- The Go error values `ExchangeTKEY` can return. -/
inductive GoError where
  | unsupportedMode : Nat → GoError
  | lookupErr : String → GoError
  | multiErr : List String → GoError
  | dnsError : String → Nat → GoError
  | multipleTkey : GoError
  | noTkey : GoError
  | tkeyError : String → Nat → GoError
deriving DecidableEq

/-- The Go return triple `(*dns.TKEY, []dns.RR, error)`. -/
structure GoResult where
  tkey : Option TKEY
  records : Option (List RR)
  err : Option GoError
deriving DecidableEq

/-- Oracle for the external collaborators: `now` is `time.Now().Unix()` at
build time, `msgId` the fresh transaction id from `dns.Id()`, `nowTsig` is
`time.Now().Unix()` at the `SetTsig` call, `lookup` is `net.LookupHost`, and
`exchange i` the `(reply, error)` pair `client.Exchange` produces on the i-th
attempt of the failover loop. -/
structure Env where
  now : Nat
  msgId : Nat
  nowTsig : Nat
  lookup : String → Except String (List String)
  exchange : Nat → Option Msg × Option String

/-- Outcome of the failover loop: the final value of the Go variable `rr`,
the sequence of messages handed to `client.Exchange`, and the accumulated
multierror list `errs`. -/
structure LoopOut where
  resp : Option Msg
  sent : List Msg
  errs : List String
deriving DecidableEq

/-- Full observable outcome of a call: the Go return triple plus whether
`net.LookupHost` ran and what was handed to the transport. -/
structure ExchangeOutcome where
  result : GoResult
  lookupInvoked : Bool
  sent : List Msg
  client : Client
deriving DecidableEq

/-- The per-mode switch computing `(inception, expiration)` (source lines
66-80): DH and GSS use `uint32(now)` and `uint32(now) + lifetime` in wrapping
32-bit arithmetic, Delete zeroes both, every other mode is rejected. -/
def modeTimestamps (mode : Nat) (now : Nat) (lifetime : Nat) : Option (Nat × Nat) :=
  if mode = TkeyModeDH ∨ mode = TkeyModeGSS then
    some (now % 4294967296, (now % 4294967296 + lifetime) % 4294967296)
  else if mode = TkeyModeDelete then
    some (0, 0)
  else
    none

/-- The TKEY record placed in `msg.Extra[0]` (source lines 82-95).  `KeySize`
is `uint16(len(input))`, hence the `% 65536`; `Key` is the hex encoding of the
input key material; the embedded `Error` field of an outgoing record is its
zero value. -/
def buildTkeyRR (keyname algorithm : String) (mode inc exp : Nat) (input : List Nat) : TKEY :=
  { name := keyname
    algorithm := algorithm
    mode := mode
    inception := inc
    expiration := exp
    keySize := input.length % 65536
    key := hexEncode input
    error := 0 }

/-- The outgoing query (source lines 50-64 and 82-97): recursion desired off,
one TKEY question under `keyname`, a fresh id, and the extra section holding
the built TKEY record followed by the caller's extra records. -/
def buildMsg (env : Env) (keyname algorithm : String) (mode inc exp : Nat)
    (input : List Nat) (extra : List RR) : Msg :=
  { id := env.msgId
    recursionDesired := false
    questionName := keyname
    answer := []
    extra := RR.tkey (buildTkeyRR keyname algorithm mode inc exp input) :: extra
    tsig := none
    rcode := 0 }

/-- The client as configured by source lines 40-48: TCP transport, and when
the algorithm lowercases to the GSS name, the null TSIG algorithm entry plus
an empty secret bound to `keyname`. -/
def initialClient (keyname algorithm : String) : Client :=
  if goToLower algorithm = GSS then
    { net := "tcp", tsigAlgorithm := some GSS, tsigSecret := [(keyname, "")] }
  else
    { net := "tcp", tsigAlgorithm := none, tsigSecret := [] }

/-- Source lines 104-107: when the algorithm is not GSS and all three TSIG
parameters are present, bind the MAC as the shared secret for the key name and
attach a TSIG record with fudge 300 and the current time. -/
def applyTsig (c : Client) (m : Msg) (algorithm : String) (nowTsig : Nat)
    (tn ta tmac : Option String) : Client × Msg :=
  match tn, ta, tmac with
  | some n, some a, some mac =>
    if goToLower algorithm ≠ GSS then
      ({ c with tsigSecret := [(n, mac)] },
       { m with tsig := some ⟨n, a, 300, nowTsig⟩ })
    else (c, m)
  | _, _, _ => (c, m)

/-- Effect of handing the message to `client.Exchange`, per the source's own
comment at line 113: "Every time we send the message the TSIG RR gets
dropped".  Because `copied := msg` at line 114 copies only the pointer, this
mutation is visible to every later attempt. -/
def dropTsig (m : Msg) : Msg := { m with tsig := none }

/-- The failover loop of source lines 109-121.  For each address, in order,
the current message value is handed to the transport; the loop breaks when the
attempt returns no error or a non-null reply, and otherwise appends the error
to the multierror accumulator and moves on with the (TSIG-stripped) message. -/
def attemptLoop (exch : Nat → Option Msg × Option String) :
    List String → Nat → Msg → List Msg → List String → LoopOut
  | [], _, _, sent, errs => ⟨none, sent, errs⟩
  | _ :: rest, i, m, sent, errs =>
    match exch i with
    | (rr, none) => ⟨rr, sent ++ [m], errs⟩
    | (some r, some _) => ⟨some r, sent ++ [m], errs⟩
    | (none, some e) => attemptLoop exch rest (i + 1) (dropTsig m) (sent ++ [m]) (errs ++ [e])

/-- The error value the Go variable `errs` holds after the loop: `nil` when
nothing was appended, otherwise the accumulated multierror. -/
def goMulti (errs : List String) : Option GoError :=
  if errs = [] then none else some (.multiErr errs)

/-- Projection used by the answer-partitioning loop: the source's type switch
on `*dns.TKEY`. -/
def RR.tkeyOf : RR → Option TKEY
  | .tkey t => some t
  | .other _ => none

/-- The TKEY-typed records of an answer section, in order. -/
def tkeysOf (l : List RR) : List TKEY := l.filterMap RR.tkeyOf

/-- The records of an answer section that are not TKEY-typed, in order: what
the source collects into `additional`. -/
def nonTkeys (l : List RR) : List RR := l.filter (fun r => (RR.tkeyOf r).isNone)

/-- The partitioning loop of source lines 135-146: scan the answers carrying
the TKEY seen so far and the `additional` accumulator, failing as soon as a
second TKEY is found. -/
def scanAnswers : List RR → Option TKEY → List RR → Except GoError (Option TKEY × List RR)
  | [], tk, add => .ok (tk, add)
  | .tkey t :: rest, tk, add =>
    match tk with
    | some _ => .error .multipleTkey
    | none => scanAnswers rest (some t) add
  | .other o :: rest, tk, add => scanAnswers rest tk (add ++ [.other o])

/-- The response validation of source lines 127-157: reject a non-success
rcode naming it, partition the answers (failing on a second TKEY), require at
least one TKEY, reject a non-zero embedded error code naming it, and otherwise
return the TKEY with the non-TKEY answers. -/
def validate (resp : Msg) : GoResult :=
  if resp.rcode ≠ 0 then
    ⟨none, none, some (.dnsError (rcodeToString resp.rcode) resp.rcode)⟩
  else
    match scanAnswers resp.answer none [] with
    | .error e => ⟨none, none, some e⟩
    | .ok (none, _) => ⟨none, none, some .noTkey⟩
    | .ok (some t, additional) =>
      if t.error ≠ 0 then
        ⟨none, none, some (.tkeyError (rcodeToString t.error) t.error)⟩
      else
        ⟨some t, some additional, none⟩

/-- The post-loop dispatch of source lines 123-157: a null `rr` returns the
accumulated errors (possibly nil), a reply goes to validation. -/
def deliver (exch : Nat → Option Msg × Option String) (addrs : List String) (m : Msg) :
    GoResult × List Msg :=
  let lo := attemptLoop exch addrs 0 m [] []
  match lo.resp with
  | none => (⟨none, none, goMulti lo.errs⟩, lo.sent)
  | some resp => (validate resp, lo.sent)

/-- The whole of `ExchangeTKEY` (source lines 38-157), staged exactly as the
source: client setup with the GSS special case, query construction with the
per-mode timestamp switch (rejecting unsupported modes before resolution),
host resolution, conditional TSIG attachment, the failover loop, and response
validation. -/
def ExchangeTKEY (env : Env) (host keyname algorithm : String) (mode : Nat)
    (lifetime : Nat) (input : List Nat) (extra : List RR)
    (tn ta tmac : Option String) : ExchangeOutcome :=
  let c0 := initialClient keyname algorithm
  match modeTimestamps mode env.now lifetime with
  | none => ⟨⟨none, none, some (.unsupportedMode mode)⟩, false, [], c0⟩
  | some te =>
    let msg0 := buildMsg env keyname algorithm mode te.1 te.2 input extra
    match env.lookup host with
    | .error e => ⟨⟨none, none, some (.lookupErr e)⟩, true, [], c0⟩
    | .ok addrs =>
      let cm := applyTsig c0 msg0 algorithm env.nowTsig tn ta tmac
      let dv := deliver env.exchange addrs cm.2
      ⟨dv.1, true, dv.2, cm.1⟩

/-- Errors produced by attempts `i, i+1, ..., i+k-1`, in attempt order, as the
multierror accumulator collects them. -/
def errsRange (exch : Nat → Option Msg × Option String) : Nat → Nat → List String
  | _, 0 => []
  | i, k + 1 => ((exch i).2).getD "" :: errsRange exch (i + 1) k

/-- Number of TKEY records already held by the scan accumulator. -/
def accCount : Option TKEY → Nat
  | none => 0
  | some _ => 1

theorem tkeysOf_nil : tkeysOf [] = [] := rfl

theorem tkeysOf_cons_tkey (t : TKEY) (l : List RR) :
    tkeysOf (RR.tkey t :: l) = t :: tkeysOf l := rfl

theorem tkeysOf_cons_other (o : Nat) (l : List RR) :
    tkeysOf (RR.other o :: l) = tkeysOf l := rfl

theorem nonTkeys_nil : nonTkeys [] = [] := rfl

theorem nonTkeys_cons_tkey (t : TKEY) (l : List RR) :
    nonTkeys (RR.tkey t :: l) = nonTkeys l := rfl

theorem nonTkeys_cons_other (o : Nat) (l : List RR) :
    nonTkeys (RR.other o :: l) = RR.other o :: nonTkeys l := rfl

theorem scanAnswers_no_tkey (l : List RR) : ∀ (acc : Option TKEY) (add : List RR),
    tkeysOf l = [] → scanAnswers l acc add = .ok (acc, add ++ nonTkeys l) := by
  induction l with
  | nil => intro acc add _; simp [scanAnswers, nonTkeys_nil]
  | cons r rest ih =>
    intro acc add h
    cases r with
    | tkey t => rw [tkeysOf_cons_tkey] at h; exact absurd h (by simp)
    | other o =>
      rw [tkeysOf_cons_other] at h
      rw [show scanAnswers (RR.other o :: rest) acc add
            = scanAnswers rest acc (add ++ [RR.other o]) from rfl]
      rw [ih acc (add ++ [RR.other o]) h, nonTkeys_cons_other]
      simp

theorem scanAnswers_one_tkey (l : List RR) : ∀ (add : List RR) (t : TKEY),
    tkeysOf l = [t] → scanAnswers l none add = .ok (some t, add ++ nonTkeys l) := by
  induction l with
  | nil => intro add t h; rw [tkeysOf_nil] at h; exact absurd h (by simp)
  | cons r rest ih =>
    intro add t h
    cases r with
    | tkey u =>
      rw [tkeysOf_cons_tkey] at h
      injection h with h1 hrest
      rw [show scanAnswers (RR.tkey u :: rest) none add
            = scanAnswers rest (some u) add from rfl]
      rw [scanAnswers_no_tkey rest (some u) add hrest, nonTkeys_cons_tkey, h1]
    | other o =>
      rw [tkeysOf_cons_other] at h
      rw [show scanAnswers (RR.other o :: rest) none add
            = scanAnswers rest none (add ++ [RR.other o]) from rfl]
      rw [ih (add ++ [RR.other o]) t h, nonTkeys_cons_other]
      simp

theorem scanAnswers_multi (l : List RR) : ∀ (acc : Option TKEY) (add : List RR),
    2 ≤ (tkeysOf l).length + accCount acc →
    scanAnswers l acc add = .error .multipleTkey := by
  induction l with
  | nil =>
    intro acc add h
    rw [tkeysOf_nil] at h
    cases acc <;> simp [accCount] at h
  | cons r rest ih =>
    intro acc add h
    cases r with
    | tkey t =>
      cases acc with
      | some a => rfl
      | none =>
        rw [show scanAnswers (RR.tkey t :: rest) none add
              = scanAnswers rest (some t) add from rfl]
        apply ih
        rw [tkeysOf_cons_tkey] at h
        simp [accCount] at h ⊢
        omega
    | other o =>
      rw [show scanAnswers (RR.other o :: rest) acc add
            = scanAnswers rest acc (add ++ [RR.other o]) from rfl]
      apply ih
      rwa [tkeysOf_cons_other] at h

/-- Claim C1: for every received response, validation succeeds if and only if
the status code is success (0), the answer section holds exactly one
TKEY-typed record, and that record's embedded error code is zero; otherwise it
fails with, respectively, a server error naming the status code's symbolic
name and numeric value, a multiple-TKEY error, a no-TKEY error, or a TKEY
protocol error naming the embedded code's symbolic name and numeric value even
though the outer status was success; on success the returned additional
records are exactly the non-TKEY answer records in their original order. -/
theorem C1_response_validation (resp : Msg) :
    ((validate resp).err = none ↔
      resp.rcode = 0 ∧ ∃ t, tkeysOf resp.answer = [t] ∧ t.error = 0)
  ∧ (resp.rcode ≠ 0 →
      validate resp = ⟨none, none, some (.dnsError (rcodeToString resp.rcode) resp.rcode)⟩)
  ∧ (resp.rcode = 0 → 2 ≤ (tkeysOf resp.answer).length →
      validate resp = ⟨none, none, some .multipleTkey⟩)
  ∧ (resp.rcode = 0 → tkeysOf resp.answer = [] →
      validate resp = ⟨none, none, some .noTkey⟩)
  ∧ (∀ t, resp.rcode = 0 → tkeysOf resp.answer = [t] → t.error ≠ 0 →
      validate resp = ⟨none, none, some (.tkeyError (rcodeToString t.error) t.error)⟩)
  ∧ (∀ t, resp.rcode = 0 → tkeysOf resp.answer = [t] → t.error = 0 →
      validate resp = ⟨some t, some (nonTkeys resp.answer), none⟩) := by
  have hbad : resp.rcode ≠ 0 →
      validate resp = ⟨none, none, some (.dnsError (rcodeToString resp.rcode) resp.rcode)⟩ := by
    intro h; simp [validate, h]
  have hmulti : resp.rcode = 0 → 2 ≤ (tkeysOf resp.answer).length →
      validate resp = ⟨none, none, some .multipleTkey⟩ := by
    intro h0 h2
    have hs := scanAnswers_multi resp.answer none [] (by simpa [accCount] using h2)
    simp [validate, h0, hs]
  have hzero : resp.rcode = 0 → tkeysOf resp.answer = [] →
      validate resp = ⟨none, none, some .noTkey⟩ := by
    intro h0 hz
    have hs := scanAnswers_no_tkey resp.answer none [] hz
    simp [validate, h0, hs]
  have herr : ∀ t, resp.rcode = 0 → tkeysOf resp.answer = [t] → t.error ≠ 0 →
      validate resp = ⟨none, none, some (.tkeyError (rcodeToString t.error) t.error)⟩ := by
    intro t h0 h1 he
    have hs := scanAnswers_one_tkey resp.answer [] t h1
    simp [validate, h0, hs, he]
  have hok : ∀ t, resp.rcode = 0 → tkeysOf resp.answer = [t] → t.error = 0 →
      validate resp = ⟨some t, some (nonTkeys resp.answer), none⟩ := by
    intro t h0 h1 he
    have hs := scanAnswers_one_tkey resp.answer [] t h1
    simp [validate, h0, hs, he]
  refine ⟨⟨?_, ?_⟩, hbad, hmulti, hzero, herr, hok⟩
  · intro hnone
    by_cases h0 : resp.rcode = 0
    · rcases hl : tkeysOf resp.answer with _ | ⟨t, _ | ⟨t2, rest⟩⟩
      · rw [hzero h0 hl] at hnone; exact absurd hnone (by simp)
      · by_cases he : t.error = 0
        · exact ⟨h0, t, rfl, he⟩
        · rw [herr t h0 hl he] at hnone; exact absurd hnone (by simp)
      · rw [hmulti h0 (by rw [hl]; simp)] at hnone
        exact absurd hnone (by simp)
    · rw [hbad h0] at hnone; exact absurd hnone (by simp)
  · rintro ⟨h0, t, hl, he⟩
    rw [hok t h0 hl he]

/-- A concrete TKEY record used in witnesses. -/
def tkeyEx : TKEY :=
  { name := "k.", algorithm := "gss-tsig.", mode := 3, inception := 10,
    expiration := 20, keySize := 0, key := "", error := 0 }

/-- A concrete successful response: success rcode, one TKEY answer between two
other records. -/
def respEx : Msg :=
  { id := 1, recursionDesired := false, questionName := "k.",
    answer := [RR.other 7, RR.tkey tkeyEx, RR.other 9], extra := [],
    tsig := none, rcode := 0 }

/-- Witness for C1 at a concrete response: validation returns the single TKEY
answer and the other records in their original order. -/
theorem C1_response_validation_witness :
    validate respEx = ⟨some tkeyEx, some [RR.other 7, RR.other 9], none⟩ :=
  (C1_response_validation respEx).2.2.2.2.2 tkeyEx rfl (by decide) rfl

/-- Claim C2: for every mode other than DiffieHellman, GSS and Delete —
including the enumerated ServerAssigned and ResolverAssigned modes —
ExchangeTKEY returns the unsupported-mode error with nil TKEY and nil records,
host resolution is never invoked and nothing is handed to the transport. -/
theorem C2_unsupported_mode (env : Env) (host keyname algorithm : String) (mode : Nat)
    (lifetime : Nat) (input : List Nat) (extra : List RR) (tn ta tmac : Option String)
    (hdh : mode ≠ TkeyModeDH) (hgss : mode ≠ TkeyModeGSS) (hdel : mode ≠ TkeyModeDelete) :
    ExchangeTKEY env host keyname algorithm mode lifetime input extra tn ta tmac =
      ⟨⟨none, none, some (.unsupportedMode mode)⟩, false, [],
        initialClient keyname algorithm⟩ := by
  simp [ExchangeTKEY, modeTimestamps, hdh, hgss, hdel]

/-- A fixed environment for witnesses; its resolver does answer and its
transport does reply, so the witnesses show those answers are never used. -/
def envWitness : Env :=
  { now := 1700000000, msgId := 42, nowTsig := 1700000001,
    lookup := fun _ => .ok ["192.0.2.1"],
    exchange := fun _ => (none, some "connection refused") }

/-- Witness for C2 at the two enumerated-but-unsupported modes, ServerAssigned
and ResolverAssigned: both fail with the unsupported-mode error before any
resolution or transport activity. -/
theorem C2_unsupported_mode_witness :
    ExchangeTKEY envWitness "ns.example.com" "k." "hmac-sha256." TkeyModeServer 3600
        [] [] none none none =
      ⟨⟨none, none, some (.unsupportedMode TkeyModeServer)⟩, false, [],
        initialClient "k." "hmac-sha256."⟩ ∧
    ExchangeTKEY envWitness "ns.example.com" "k." "hmac-sha256." TkeyModeResolver 3600
        [] [] none none none =
      ⟨⟨none, none, some (.unsupportedMode TkeyModeResolver)⟩, false, [],
        initialClient "k." "hmac-sha256."⟩ :=
  ⟨C2_unsupported_mode envWitness "ns.example.com" "k." "hmac-sha256." TkeyModeServer 3600
      [] [] none none none (by decide) (by decide) (by decide),
   C2_unsupported_mode envWitness "ns.example.com" "k." "hmac-sha256." TkeyModeResolver 3600
      [] [] none none none (by decide) (by decide) (by decide)⟩

/-- Claim C3: for modes DiffieHellman and GSS the built timestamps satisfy
inception = current epoch seconds (as uint32) and expiration = inception plus
lifetime in 32-bit arithmetic, so that the uint32 difference
expiration - inception equals lifetime; for mode Delete both are zero
regardless of lifetime. -/
theorem C3_timestamps (now lifetime : Nat)
    (hn : now < 4294967296) (hl : lifetime < 4294967296) :
    (modeTimestamps TkeyModeDH now lifetime
        = some (now, (now + lifetime) % 4294967296)
  ∧ modeTimestamps TkeyModeGSS now lifetime
        = some (now, (now + lifetime) % 4294967296)
  ∧ (now + lifetime < 4294967296 → (now + lifetime) % 4294967296 = now + lifetime)
  ∧ ((now + lifetime) % 4294967296 + 4294967296 - now) % 4294967296 = lifetime)
  ∧ ∀ lt2 : Nat, modeTimestamps TkeyModeDelete now lt2 = some (0, 0) := by
  refine ⟨⟨?_, ?_, fun h => Nat.mod_eq_of_lt h, ?_⟩,
    fun lt2 => by simp [modeTimestamps, TkeyModeDelete, TkeyModeDH, TkeyModeGSS]⟩
  · simp [modeTimestamps, TkeyModeDH, Nat.mod_eq_of_lt hn]
  · simp [modeTimestamps, TkeyModeGSS, Nat.mod_eq_of_lt hn]
  · omega

/-- Witness for C3 at a concrete clock and lifetime. -/
theorem C3_timestamps_witness :
    modeTimestamps TkeyModeDH 1700000000 3600 = some (1700000000, 1700003600) ∧
    modeTimestamps TkeyModeDelete 1700000000 3600 = some (0, 0) := by
  have h := C3_timestamps 1700000000 3600 (by decide) (by decide)
  exact ⟨by rw [h.1.1], h.2 3600⟩

/-- Claim C10: the expiration timestamp wraps modulo 2^32: whenever
uint32(now) + lifetime reaches 2^32, the built record has expiration strictly
below inception while the uint32 difference expiration - inception still
equals lifetime modulo 2^32, for both timestamped modes. -/
theorem C10_expiration_wraps (now lifetime mode : Nat)
    (hmode : mode = TkeyModeDH ∨ mode = TkeyModeGSS)
    (hl : lifetime < 4294967296)
    (hw : 4294967296 ≤ now % 4294967296 + lifetime)
    (inc exp2 : Nat)
    (h : modeTimestamps mode now lifetime = some (inc, exp2)) :
    exp2 < inc ∧ (exp2 + 4294967296 - inc) % 4294967296 = lifetime % 4294967296 := by
  have hsome : (some (now % 4294967296, (now % 4294967296 + lifetime) % 4294967296)
      : Option (Nat × Nat)) = some (inc, exp2) := by
    rcases hmode with h2 | h3
    · rw [← h, h2]; simp [modeTimestamps, TkeyModeDH]
    · rw [← h, h3]; simp [modeTimestamps, TkeyModeGSS]
  have hinc : now % 4294967296 = inc := (Prod.mk.injEq _ _ _ _).mp (Option.some.inj hsome) |>.1
  have hexp : (now % 4294967296 + lifetime) % 4294967296 = exp2 :=
    (Prod.mk.injEq _ _ _ _).mp (Option.some.inj hsome) |>.2
  omega

/-- Witness for C10: one second of lifetime at the last representable epoch
second makes the expiration wrap to zero, below the inception. -/
theorem C10_expiration_wraps_witness :
    modeTimestamps TkeyModeDH 4294967295 1 = some (4294967295, 0) ∧
    ((0 : Nat) < 4294967295 ∧ (0 + 4294967296 - 4294967295) % 4294967296 = 1 % 4294967296) :=
  ⟨by decide,
   C10_expiration_wraps 4294967295 1 TkeyModeDH (Or.inl rfl) (by decide) (by decide)
     4294967295 0 (by decide)⟩

theorem buildTkeyRR_keySize (keyname algorithm : String) (mode inc exp2 : Nat)
    (input : List Nat) :
    (buildTkeyRR keyname algorithm mode inc exp2 input).keySize = input.length % 65536 := rfl

/-- Counterexample to claim C8 as stated: keySize is computed as
uint16(len(input)), so a 65536-byte key material yields keySize 0, not its
byte length. -/
theorem C8_keysize_counterexample :
    (buildTkeyRR "k." "a." TkeyModeDH 0 0 (List.replicate 65536 0)).keySize ≠ 65536 := by
  rw [buildTkeyRR_keySize, List.length_replicate]
  omega

/-- Claim C8 as amended: keySize equals the byte length of the key material
reduced modulo 2^16 (hence equals the byte length whenever it is below 65536),
the key field is the lowercase hex encoding of the key material, and in
particular the bytes 0x01 0x02 0xAB yield key "0102ab" with keySize 3. -/
theorem C8_key_encoding_amended (keyname algorithm : String) (mode inc exp2 : Nat)
    (input : List Nat) :
    ((buildTkeyRR keyname algorithm mode inc exp2 input).keySize = input.length % 65536
  ∧ (input.length < 65536 →
      (buildTkeyRR keyname algorithm mode inc exp2 input).keySize = input.length)
  ∧ (buildTkeyRR keyname algorithm mode inc exp2 input).key = hexEncode input)
  ∧ (buildTkeyRR "k." "a." TkeyModeDH 0 0 [1, 2, 171]).key = "0102ab"
  ∧ (buildTkeyRR "k." "a." TkeyModeDH 0 0 [1, 2, 171]).keySize = 3 := by
  refine ⟨⟨rfl, fun h => ?_, rfl⟩, by decide, by decide⟩
  simp [buildTkeyRR, Nat.mod_eq_of_lt h]

/-- Witness for C8's amended claim at the concrete key material of the spec's
round-trip property. -/
theorem C8_key_encoding_amended_witness :
    (buildTkeyRR "k." "a." TkeyModeDH 0 0 [1, 2, 171]).keySize = 3 ∧
    (buildTkeyRR "k." "a." TkeyModeDH 0 0 [1, 2, 171]).key = "0102ab" :=
  ⟨(C8_key_encoding_amended "k." "a." TkeyModeDH 0 0 [1, 2, 171]).1.2.1 (by decide),
   (C8_key_encoding_amended "k." "a." TkeyModeDH 0 0 [1, 2, 171]).2.1⟩

theorem attemptLoop_char (exch : Nat → Option Msg × Option String) :
    ∀ (addrs : List String) (i : Nat) (m : Msg) (sent : List Msg) (errs : List String),
      (∃ k, k < addrs.length ∧
        (∀ j, j < k → (exch (i + j)).1 = none ∧ (exch (i + j)).2 ≠ none) ∧
        ((exch (i + k)).2 = none ∨ (exch (i + k)).1 ≠ none) ∧
        (attemptLoop exch addrs i m sent errs).resp = (exch (i + k)).1 ∧
        (attemptLoop exch addrs i m sent errs).errs = errs ++ errsRange exch i k)
      ∨ ((∀ j, j < addrs.length → (exch (i + j)).1 = none ∧ (exch (i + j)).2 ≠ none) ∧
        (attemptLoop exch addrs i m sent errs).resp = none ∧
        (attemptLoop exch addrs i m sent errs).errs = errs ++ errsRange exch i addrs.length) := by
  intro addrs
  induction addrs with
  | nil =>
    intro i m sent errs
    right
    refine ⟨by simp, by simp [attemptLoop], by simp [attemptLoop, errsRange]⟩
  | cons a rest ih =>
    intro i m sent errs
    rcases hx : exch i with ⟨rr, err⟩
    cases err with
    | none =>
      left
      refine ⟨0, by simp, by simp, ?_, ?_, ?_⟩
      · rw [Nat.add_zero, hx]; exact Or.inl rfl
      · rw [Nat.add_zero, hx]; cases rr <;> simp [attemptLoop, hx]
      · cases rr <;> simp [attemptLoop, hx, errsRange]
    | some e =>
      cases rr with
      | some r =>
        left
        refine ⟨0, by simp, by simp, ?_, ?_, ?_⟩
        · rw [Nat.add_zero, hx]; exact Or.inr (by simp)
        · rw [Nat.add_zero, hx]; simp [attemptLoop, hx]
        · simp [attemptLoop, hx, errsRange]
      | none =>
        have step : attemptLoop exch (a :: rest) i m sent errs
            = attemptLoop exch rest (i + 1) (dropTsig m) (sent ++ [m]) (errs ++ [e]) := by
          simp [attemptLoop, hx]
        rcases ih (i + 1) (dropTsig m) (sent ++ [m]) (errs ++ [e]) with
          ⟨k, hk, hfail, hstop, hresp, herrs⟩ | ⟨hfail, hresp, herrs⟩
        · left
          refine ⟨k + 1, by simpa using Nat.succ_lt_succ hk, ?_, ?_, ?_, ?_⟩
          · intro j hj
            cases j with
            | zero => rw [Nat.add_zero, hx]; exact ⟨rfl, by simp⟩
            | succ j2 =>
              have hidx : i + (j2 + 1) = i + 1 + j2 := by omega
              rw [hidx]
              exact hfail j2 (by omega)
          · have hidx : i + (k + 1) = i + 1 + k := by omega
            rw [hidx]; exact hstop
          · have hidx : i + (k + 1) = i + 1 + k := by omega
            rw [step, hidx]; exact hresp
          · rw [step, herrs]
            simp [errsRange, hx]
        · right
          refine ⟨?_, ?_, ?_⟩
          · intro j hj
            cases j with
            | zero => rw [Nat.add_zero, hx]; exact ⟨rfl, by simp⟩
            | succ j2 =>
              have hidx : i + (j2 + 1) = i + 1 + j2 := by omega
              rw [hidx]
              exact hfail j2 (by simpa using hj)
          · rw [step]; exact hresp
          · rw [step, herrs]
            simp [errsRange, hx]

theorem attemptLoop_sent (exch : Nat → Option Msg × Option String) :
    ∀ (addrs : List String) (i : Nat) (m : Msg) (sent : List Msg) (errs : List String),
      ∃ l, (attemptLoop exch addrs i m sent errs).sent = sent ++ l ∧
        (addrs = [] → l = []) ∧
        (∀ a rest2, addrs = a :: rest2 → ∃ l2, l = m :: l2 ∧ ∀ x ∈ l2, x.tsig = none) := by
  intro addrs
  induction addrs with
  | nil =>
    intro i m sent errs
    exact ⟨[], by simp [attemptLoop], fun _ => rfl, by simp⟩
  | cons a rest ih =>
    intro i m sent errs
    rcases hx : exch i with ⟨rr, err⟩
    cases err with
    | none =>
      refine ⟨[m], by cases rr <;> simp [attemptLoop, hx], by simp, ?_⟩
      intro a2 r2 _
      exact ⟨[], rfl, by simp⟩
    | some e =>
      cases rr with
      | some r =>
        refine ⟨[m], by simp [attemptLoop, hx], by simp, ?_⟩
        intro a2 r2 _
        exact ⟨[], rfl, by simp⟩
      | none =>
        have step : attemptLoop exch (a :: rest) i m sent errs
            = attemptLoop exch rest (i + 1) (dropTsig m) (sent ++ [m]) (errs ++ [e]) := by
          simp [attemptLoop, hx]
        rcases ih (i + 1) (dropTsig m) (sent ++ [m]) (errs ++ [e]) with ⟨l, hl, hnil, hcons⟩
        refine ⟨m :: l, by rw [step, hl]; simp, by simp, ?_⟩
        intro a2 r2 _
        refine ⟨l, rfl, ?_⟩
        intro x hx2
        rcases rest with _ | ⟨a3, r3⟩
        · rw [hnil rfl] at hx2
          exact absurd hx2 (by simp)
        · rcases hcons a3 r3 rfl with ⟨l2, hl2, hall⟩
          rw [hl2] at hx2
          rcases List.mem_cons.mp hx2 with h1 | h2
          · rw [h1]; rfl
          · exact hall x h2

theorem deliver_sent (exch : Nat → Option Msg × Option String) (addrs : List String) (m : Msg) :
    (deliver exch addrs m).2 = (attemptLoop exch addrs 0 m [] []).sent := by
  cases h : (attemptLoop exch addrs 0 m [] []).resp <;> simp [deliver, h]

theorem ExchangeTKEY_reaches_loop (env : Env) (host keyname algorithm : String)
    (mode lifetime : Nat) (input : List Nat) (extra : List RR)
    (tn ta tmac : Option String) (te : Nat × Nat)
    (hm : modeTimestamps mode env.now lifetime = some te)
    (addrs : List String) (hl : env.lookup host = .ok addrs) :
    ExchangeTKEY env host keyname algorithm mode lifetime input extra tn ta tmac =
      ⟨(deliver env.exchange addrs
          (applyTsig (initialClient keyname algorithm)
            (buildMsg env keyname algorithm mode te.1 te.2 input extra)
            algorithm env.nowTsig tn ta tmac).2).1,
       true,
       (deliver env.exchange addrs
          (applyTsig (initialClient keyname algorithm)
            (buildMsg env keyname algorithm mode te.1 te.2 input extra)
            algorithm env.nowTsig tn ta tmac).2).2,
       (applyTsig (initialClient keyname algorithm)
          (buildMsg env keyname algorithm mode te.1 te.2 input extra)
          algorithm env.nowTsig tn ta tmac).1⟩ := by
  simp [ExchangeTKEY, hm, hl]

/-- Environment where the first address fails with a transport error and the
second attempt yields no error but also no reply. -/
def envC5 : Env :=
  { now := 1700000000, msgId := 5, nowTsig := 1700000000,
    lookup := fun _ => .ok ["192.0.2.1", "192.0.2.2"],
    exchange := fun j => if j = 0 then (none, some "dial refused") else (none, none) }

/-- Counterexample to claim C5 as stated: the second attempt returns no
transport error (so the loop stops there), yet the previously accumulated
per-address error is returned rather than discarded, and no validation result
is produced. -/
theorem C5_failover_counterexample :
    (envC5.exchange 1).2 = none ∧
    (ExchangeTKEY envC5 "h" "k." "a." TkeyModeDelete 0 [] [] none none none).result
      = ⟨none, none, some (.multiErr ["dial refused"])⟩ := ⟨rfl, rfl⟩

/-- Claim C5 as amended: addresses are attempted strictly in resolution order
and the loop stops at the first attempt returning either no transport error or
a non-null response; when that attempt yielded a non-null response, validation
proceeds with it and accumulated errors are discarded; when the loop ends with
a null response — by exhausting the addresses, or because the stopping attempt
returned a null response with no error — the accumulated per-address errors
are returned in attempt order, nothing deduplicated (as a nil error when none
accumulated). -/
theorem C5_failover_amended (env : Env) (host keyname algorithm : String)
    (mode lifetime : Nat) (input : List Nat) (extra : List RR)
    (tn ta tmac : Option String) (te : Nat × Nat)
    (hm : modeTimestamps mode env.now lifetime = some te)
    (addrs : List String) (hl : env.lookup host = .ok addrs) :
    (∃ k, k < addrs.length ∧
      (∀ j, j < k → (env.exchange j).1 = none ∧ (env.exchange j).2 ≠ none) ∧
      ((env.exchange k).2 = none ∨ (env.exchange k).1 ≠ none) ∧
      (∀ resp, (env.exchange k).1 = some resp →
        (ExchangeTKEY env host keyname algorithm mode lifetime input extra tn ta tmac).result
          = validate resp) ∧
      ((env.exchange k).1 = none →
        (ExchangeTKEY env host keyname algorithm mode lifetime input extra tn ta tmac).result
          = ⟨none, none, goMulti (errsRange env.exchange 0 k)⟩))
  ∨ ((∀ j, j < addrs.length → (env.exchange j).1 = none ∧ (env.exchange j).2 ≠ none) ∧
      (ExchangeTKEY env host keyname algorithm mode lifetime input extra tn ta tmac).result
        = ⟨none, none, goMulti (errsRange env.exchange 0 addrs.length)⟩) := by
  rw [ExchangeTKEY_reaches_loop env host keyname algorithm mode lifetime input extra
    tn ta tmac te hm addrs hl]
  generalize (applyTsig (initialClient keyname algorithm)
      (buildMsg env keyname algorithm mode te.1 te.2 input extra)
      algorithm env.nowTsig tn ta tmac).2 = m1
  rcases attemptLoop_char env.exchange addrs 0 m1 [] [] with
    ⟨k, hk, hfail, hstop, hresp, herrs⟩ | ⟨hfail, hresp, herrs⟩
  · left
    refine ⟨k, hk, by simpa using hfail, by simpa using hstop, ?_, ?_⟩
    · intro resp hr
      have h1 : (attemptLoop env.exchange addrs 0 m1 [] []).resp = some resp := by
        rw [hresp, Nat.zero_add, hr]
      simp [deliver, h1]
    · intro hr
      have h1 : (attemptLoop env.exchange addrs 0 m1 [] []).resp = none := by
        rw [hresp, Nat.zero_add, hr]
      have h2 : (attemptLoop env.exchange addrs 0 m1 [] []).errs
          = errsRange env.exchange 0 k := by
        rw [herrs]; simp
      simp [deliver, h1, h2]
  · right
    refine ⟨by simpa using hfail, ?_⟩
    have h2 : (attemptLoop env.exchange addrs 0 m1 [] []).errs
        = errsRange env.exchange 0 addrs.length := by
      rw [herrs]; simp
    simp [deliver, hresp, h2]

/-- A TKEY answer used by the C5 witness response. -/
def tkeyW5 : TKEY :=
  { name := "k.", algorithm := "a.", mode := 5, inception := 0,
    expiration := 0, keySize := 0, key := "", error := 0 }

/-- The response the second address returns in the C5 witness. -/
def respW5 : Msg :=
  { id := 5, recursionDesired := false, questionName := "k.",
    answer := [RR.tkey tkeyW5], extra := [], tsig := none, rcode := 0 }

/-- Environment for the C5 witness: the first address fails with a transport
error, the second returns a response. -/
def envW5 : Env :=
  { now := 1700000000, msgId := 5, nowTsig := 1700000000,
    lookup := fun _ => .ok ["192.0.2.1", "192.0.2.2"],
    exchange := fun j => if j = 0 then (none, some "dial refused") else (some respW5, none) }

/-- Witness for C5's amended claim: with the first attempt failing and the
second returning a response, the call's result is the validation of that
response (the first attempt's error is discarded). -/
theorem C5_failover_amended_witness :
    (ExchangeTKEY envW5 "h" "k." "a." TkeyModeDelete 0 [] [] none none none).result
      = validate respW5 := by
  rcases C5_failover_amended envW5 "h" "k." "a." TkeyModeDelete 0 [] [] none none none
      (0, 0) rfl ["192.0.2.1", "192.0.2.2"] rfl with
    ⟨k, hk, hfail, hstop, hsome, hnone⟩ | ⟨hfail, hres⟩
  · rcases k with _ | _ | k2
    · exact absurd hstop (by decide)
    · exact hsome respW5 rfl
    · simp only [List.length_cons, List.length_nil] at hk
      omega
  · exact absurd (hfail 1 (by decide)).1 (by decide)

/-- Environment whose resolver succeeds with an empty address list. -/
def envC6 : Env :=
  { now := 1700000000, msgId := 6, nowTsig := 1700000000,
    lookup := fun _ => .ok [],
    exchange := fun _ => (none, some "unreachable") }

/-- Counterexample to claim C6 as stated: when resolution succeeds with zero
addresses the call makes no transport attempt but returns a nil error (with
nil TKEY and nil records), not a resolution error. -/
theorem C6_resolution_counterexample :
    envC6.lookup "h" = .ok [] ∧
    ExchangeTKEY envC6 "h" "k." "a." TkeyModeDelete 0 [] [] none none none
      = ⟨⟨none, none, none⟩, true, [], initialClient "k." "a."⟩ := ⟨rfl, rfl⟩

/-- Claim C6 as amended: when host resolution returns an error the call fails
with that error (nil TKEY, nil records) and no transport attempt is made; when
resolution succeeds with zero addresses, no transport attempt is made either,
but the call returns nil error, nil TKEY and nil records instead of failing. -/
theorem C6_resolution_amended (env : Env) (host keyname algorithm : String)
    (mode lifetime : Nat) (input : List Nat) (extra : List RR)
    (tn ta tmac : Option String) (te : Nat × Nat)
    (hm : modeTimestamps mode env.now lifetime = some te) :
    (∀ e, env.lookup host = .error e →
      ExchangeTKEY env host keyname algorithm mode lifetime input extra tn ta tmac =
        ⟨⟨none, none, some (.lookupErr e)⟩, true, [], initialClient keyname algorithm⟩)
  ∧ (env.lookup host = .ok [] →
      (ExchangeTKEY env host keyname algorithm mode lifetime input extra tn ta tmac).result
        = ⟨none, none, none⟩ ∧
      (ExchangeTKEY env host keyname algorithm mode lifetime input extra tn ta tmac).sent
        = []) := by
  constructor
  · intro e he
    simp [ExchangeTKEY, hm, he]
  · intro he
    rw [ExchangeTKEY_reaches_loop env host keyname algorithm mode lifetime input extra
      tn ta tmac te hm [] he]
    constructor <;> simp [deliver, attemptLoop, goMulti]

/-- Environment whose resolver fails outright. -/
def envC6err : Env :=
  { now := 1700000000, msgId := 6, nowTsig := 1700000000,
    lookup := fun _ => .error "no such host",
    exchange := fun _ => (none, some "unreachable") }

/-- Witness for C6's amended claim: a resolver error is returned as the call's
error, with nil TKEY, nil records and no transport attempt. -/
theorem C6_resolution_amended_witness :
    ExchangeTKEY envC6err "h" "k." "a." TkeyModeDelete 0 [] [] none none none
      = ⟨⟨none, none, some (.lookupErr "no such host")⟩, true, [],
          initialClient "k." "a."⟩ :=
  (C6_resolution_amended envC6err "h" "k." "a." TkeyModeDelete 0 [] [] none none none
    (0, 0) rfl).1 "no such host" rfl

/-- Environment for C7: two resolved addresses, every transport attempt fails. -/
def envC7 : Env :=
  { now := 1700000000, msgId := 7, nowTsig := 1700000200,
    lookup := fun _ => .ok ["192.0.2.1", "192.0.2.2"],
    exchange := fun _ => (none, some "i/o timeout") }

/-- Evaluation of the code at C7's failing input: with TSIG parameters
supplied and two resolved addresses whose first attempt fails, the message
handed to the transport on the second attempt no longer carries the TSIG
record — `copied := msg` copies only the pointer, so the signature dropped by
the first send is never reapplied. -/
theorem C7_tsig_not_reapplied :
    (ExchangeTKEY envC7 "h" "k." "hmac-sha256." TkeyModeDH 3600 [] []
        (some "tkey.") (some "hmac-sha256.") (some "bWFj")).sent.map Msg.tsig
      = [some ⟨"tkey.", "hmac-sha256.", 300, 1700000200⟩, none] := rfl

/-- Environment for C9 whose resolver yields an empty address list. -/
def envC9a : Env :=
  { now := 3, msgId := 3, nowTsig := 3,
    lookup := fun _ => .ok [],
    exchange := fun _ => (none, some "x") }

/-- Environment for C9 whose single transport attempt returns a nil response
together with a nil error. -/
def envC9b : Env :=
  { now := 3, msgId := 3, nowTsig := 3,
    lookup := fun _ => .ok ["192.0.2.9"],
    exchange := fun _ => (none, none) }

/-- Claim C9: executions returning nil TKEY, nil records and nil error exist:
resolution succeeding with an empty address list never runs the loop body and
returns the nil accumulated error, and a transport attempt returning a nil
response with a nil error breaks the loop and reaches the same nil/nil/nil
return (here after one attempt, as the sent-message count shows). -/
theorem C9_nil_result_nil_error :
    ((ExchangeTKEY envC9a "h" "k." "a." TkeyModeDH 60 [] [] none none none).result
        = ⟨none, none, none⟩ ∧
      (ExchangeTKEY envC9a "h" "k." "a." TkeyModeDH 60 [] [] none none none).sent = []) ∧
    ((ExchangeTKEY envC9b "h" "k." "a." TkeyModeDH 60 [] [] none none none).result
        = ⟨none, none, none⟩ ∧
      (ExchangeTKEY envC9b "h" "k." "a." TkeyModeDH 60 [] [] none none none).sent.length
        = 1) :=
  ⟨⟨rfl, rfl⟩, ⟨rfl, rfl⟩⟩

theorem initialClient_gss (keyname algorithm : String) (hg : goToLower algorithm = GSS) :
    initialClient keyname algorithm = ⟨"tcp", some GSS, [(keyname, "")]⟩ := by
  simp [initialClient, hg]

theorem applyTsig_gss (algorithm : String) (hg : goToLower algorithm = GSS)
    (c : Client) (m : Msg) (nowTsig : Nat) (tn ta tmac : Option String) :
    applyTsig c m algorithm nowTsig tn ta tmac = (c, m) := by
  rcases tn with _ | n <;> rcases ta with _ | a <;> rcases tmac with _ | mac <;>
    simp [applyTsig, hg]

theorem applyTsig_missing (algorithm : String) (c : Client) (m : Msg) (nowTsig : Nat)
    (tn ta tmac : Option String) (h : tn = none ∨ ta = none ∨ tmac = none) :
    applyTsig c m algorithm nowTsig tn ta tmac = (c, m) := by
  rcases tn with _ | n
  · rfl
  · rcases ta with _ | a
    · rfl
    · rcases tmac with _ | mac
      · rfl
      · rcases h with h | h | h <;> simp at h

theorem applyTsig_signs (algorithm : String) (hg : goToLower algorithm ≠ GSS)
    (c : Client) (m : Msg) (nowTsig : Nat) (n a mac : String) :
    applyTsig c m algorithm nowTsig (some n) (some a) (some mac)
      = ({ c with tsigSecret := [(n, mac)] },
         { m with tsig := some ⟨n, a, 300, nowTsig⟩ }) := by
  simp [applyTsig, hg]

theorem ExchangeTKEY_sent_eq (env : Env) (host keyname algorithm : String)
    (mode lifetime : Nat) (input : List Nat) (extra : List RR) (tn ta tmac : Option String)
    (te : Nat × Nat) (hm : modeTimestamps mode env.now lifetime = some te)
    (addrs : List String) (hl : env.lookup host = .ok addrs) :
    (ExchangeTKEY env host keyname algorithm mode lifetime input extra tn ta tmac).sent
      = (attemptLoop env.exchange addrs 0
          (applyTsig (initialClient keyname algorithm)
            (buildMsg env keyname algorithm mode te.1 te.2 input extra)
            algorithm env.nowTsig tn ta tmac).2 [] []).sent := by
  rw [ExchangeTKEY_reaches_loop env host keyname algorithm mode lifetime input extra
    tn ta tmac te hm addrs hl]
  exact deliver_sent env.exchange addrs _

theorem ExchangeTKEY_client_eq (env : Env) (host keyname algorithm : String)
    (mode lifetime : Nat) (input : List Nat) (extra : List RR) (tn ta tmac : Option String)
    (te : Nat × Nat) (hm : modeTimestamps mode env.now lifetime = some te)
    (addrs : List String) (hl : env.lookup host = .ok addrs) :
    (ExchangeTKEY env host keyname algorithm mode lifetime input extra tn ta tmac).client
      = (applyTsig (initialClient keyname algorithm)
          (buildMsg env keyname algorithm mode te.1 te.2 input extra)
          algorithm env.nowTsig tn ta tmac).1 := by
  rw [ExchangeTKEY_reaches_loop env host keyname algorithm mode lifetime input extra
    tn ta tmac te hm addrs hl]

theorem ExchangeTKEY_sent_unsigned (env : Env) (host keyname algorithm : String)
    (mode lifetime : Nat) (input : List Nat) (extra : List RR) (tn ta tmac : Option String)
    (happ : ∀ (c : Client) (m : Msg),
      applyTsig c m algorithm env.nowTsig tn ta tmac = (c, m)) :
    ∀ x ∈ (ExchangeTKEY env host keyname algorithm mode lifetime input extra tn ta tmac).sent,
      x.tsig = none := by
  rcases hm : modeTimestamps mode env.now lifetime with _ | te
  · simp [ExchangeTKEY, hm]
  · rcases hlk : env.lookup host with e | addrs
    · simp [ExchangeTKEY, hm, hlk]
    · rw [ExchangeTKEY_sent_eq env host keyname algorithm mode lifetime input extra
        tn ta tmac te hm addrs hlk, happ]
      dsimp only
      rcases attemptLoop_sent env.exchange addrs 0
        (buildMsg env keyname algorithm mode te.1 te.2 input extra) [] [] with
        ⟨l, hl, hnil, hcons⟩
      rw [hl]
      simp only [List.nil_append]
      intro x hx
      rcases addrs with _ | ⟨a0, rest0⟩
      · rw [hnil rfl] at hx
        exact absurd hx (by simp)
      · rcases hcons a0 rest0 rfl with ⟨l2, hl2, hall⟩
        rw [hl2] at hx
        rcases List.mem_cons.mp hx with h1 | h2
        · rw [h1]; rfl
        · exact hall x h2

/-- Claim C4: when the algorithm compared case-insensitively equals
"gss-tsig." the client is configured with the null TSIG algorithm and an empty
secret bound to the key name, and no TSIG record is attached to any message
handed to the transport, even when all three TSIG parameters are supplied;
when the algorithm is not GSS and all three parameters are present, the
message first handed to the transport carries a TSIG record with fudge 300 and
the current timestamp and the client's secret map binds the TSIG key name to
the MAC; when any of the three is absent, every message is sent unsigned. -/
theorem C4_tsig_configuration (env : Env) (host keyname algorithm : String)
    (mode lifetime : Nat) (input : List Nat) (extra : List RR) (tn ta tmac : Option String) :
    (goToLower algorithm = GSS →
      (ExchangeTKEY env host keyname algorithm mode lifetime input extra tn ta tmac).client
        = ⟨"tcp", some GSS, [(keyname, "")]⟩ ∧
      ∀ x ∈ (ExchangeTKEY env host keyname algorithm mode lifetime input extra tn ta tmac).sent,
        x.tsig = none)
  ∧ (∀ n a mac, goToLower algorithm ≠ GSS → tn = some n → ta = some a → tmac = some mac →
      ∀ te, modeTimestamps mode env.now lifetime = some te →
      ∀ a0 rest0, env.lookup host = .ok (a0 :: rest0) →
      (ExchangeTKEY env host keyname algorithm mode lifetime input extra tn ta tmac).client.tsigSecret
        = [(n, mac)] ∧
      ∃ m0 l2,
        (ExchangeTKEY env host keyname algorithm mode lifetime input extra tn ta tmac).sent
          = m0 :: l2 ∧ m0.tsig = some ⟨n, a, 300, env.nowTsig⟩)
  ∧ ((tn = none ∨ ta = none ∨ tmac = none) →
      ∀ x ∈ (ExchangeTKEY env host keyname algorithm mode lifetime input extra tn ta tmac).sent,
        x.tsig = none) := by
  refine ⟨?_, ?_, ?_⟩
  · intro hg
    constructor
    · rcases hm : modeTimestamps mode env.now lifetime with _ | te
      · simp [ExchangeTKEY, hm, initialClient_gss keyname algorithm hg]
      · rcases hlk : env.lookup host with e | addrs
        · simp [ExchangeTKEY, hm, hlk, initialClient_gss keyname algorithm hg]
        · rw [ExchangeTKEY_client_eq env host keyname algorithm mode lifetime input extra
            tn ta tmac te hm addrs hlk, applyTsig_gss algorithm hg,
            initialClient_gss keyname algorithm hg]
    · exact ExchangeTKEY_sent_unsigned env host keyname algorithm mode lifetime input extra
        tn ta tmac (fun c m => applyTsig_gss algorithm hg c m env.nowTsig tn ta tmac)
  · intro n a mac hg htn hta htm te hm a0 rest0 hlk
    subst htn; subst hta; subst htm
    constructor
    · rw [ExchangeTKEY_client_eq env host keyname algorithm mode lifetime input extra
        (some n) (some a) (some mac) te hm (a0 :: rest0) hlk,
        applyTsig_signs algorithm hg]
    · rw [ExchangeTKEY_sent_eq env host keyname algorithm mode lifetime input extra
        (some n) (some a) (some mac) te hm (a0 :: rest0) hlk,
        applyTsig_signs algorithm hg]
      dsimp only
      rcases attemptLoop_sent env.exchange (a0 :: rest0) 0
        ({ buildMsg env keyname algorithm mode te.1 te.2 input extra with
           tsig := some ⟨n, a, 300, env.nowTsig⟩ }) [] [] with ⟨l, hl, hnil, hcons⟩
      rcases hcons a0 rest0 rfl with ⟨l2, hl2, hall⟩
      refine ⟨{ buildMsg env keyname algorithm mode te.1 te.2 input extra with
                tsig := some ⟨n, a, 300, env.nowTsig⟩ }, l2, ?_, rfl⟩
      rw [hl, hl2]
      simp
  · intro hmiss
    exact ExchangeTKEY_sent_unsigned env host keyname algorithm mode lifetime input extra
      tn ta tmac (fun c m => applyTsig_missing algorithm c m env.nowTsig tn ta tmac hmiss)

/-- Environment for the C4 witness. -/
def envC4 : Env :=
  { now := 1700000000, msgId := 4, nowTsig := 1700000300,
    lookup := fun _ => .ok ["192.0.2.4"],
    exchange := fun _ => (none, some "refused") }

/-- Witness for C4: with the mixed-case algorithm "GSS-TSIG." and all three
TSIG parameters supplied, the client still gets the null-algorithm
configuration with an empty secret bound to the key name; with a non-GSS
algorithm the client's secret binds the TSIG key name to the MAC. -/
theorem C4_tsig_configuration_witness :
    (goToLower "GSS-TSIG." = GSS ∧
      (ExchangeTKEY envC4 "h" "k." "GSS-TSIG." TkeyModeGSS 3600 [] []
          (some "tkeyname.") (some "hmac-sha1.") (some "mac")).client
        = ⟨"tcp", some GSS, [("k.", "")]⟩) ∧
    (ExchangeTKEY envC4 "h" "k." "hmac-sha256." TkeyModeGSS 3600 [] []
        (some "tkeyname.") (some "hmac-sha1.") (some "mac")).client.tsigSecret
      = [("tkeyname.", "mac")] := by
  refine ⟨⟨by decide, ?_⟩, ?_⟩
  · exact ((C4_tsig_configuration envC4 "h" "k." "GSS-TSIG." TkeyModeGSS 3600 [] []
      (some "tkeyname.") (some "hmac-sha1.") (some "mac")).1 (by decide)).1
  · exact ((C4_tsig_configuration envC4 "h" "k." "hmac-sha256." TkeyModeGSS 3600 [] []
      (some "tkeyname.") (some "hmac-sha1.") (some "mac")).2.1 "tkeyname." "hmac-sha1."
      "mac" (by decide) rfl rfl rfl (1700000000, 1700003600) rfl
      "192.0.2.4" [] rfl).1

end Tsig
